import Mathlib

/-!
Verification of the line-matching correspondence engine declared in
`Src/Representations/Modeling/LineMatchingResult.h`.

The data model (FieldLine, PoseHypothesis, PoseHypothesisInterval,
LineMatchingResult) and its member functions are shallowly embedded over
real arithmetic; fixed-size C arrays become lists carrying a length
invariant; mutating members become state-to-state functions.
-/

noncomputable section

open Real

/-- Four-quadrant arctangent, the semantics of C `atan2(y, x)`:
the polar angle of the vector (x, y), in radians. -/
def atan2 (y x : ℝ) : ℝ :=
  if 0 < x then Real.arctan (y / x)
  else if x < 0 ∧ 0 ≤ y then Real.arctan (y / x) + Real.pi
  else if x < 0 then Real.arctan (y / x) - Real.pi
  else if 0 < y then Real.pi / 2
  else if y < 0 then -(Real.pi / 2)
  else 0

/-- Embedding of Eigen `Vector2d`: a 2D vector of doubles, modelled over ℝ. -/
@[ext] structure Vector2d where
  x : ℝ
  y : ℝ

instance : Add Vector2d := ⟨fun a b => ⟨a.x + b.x, a.y + b.y⟩⟩

instance : Sub Vector2d := ⟨fun a b => ⟨a.x - b.x, a.y - b.y⟩⟩

/-- Eigen `Vector2d::norm()`: the Euclidean norm. -/
def Vector2d.norm (v : Vector2d) : ℝ := Real.sqrt (v.x ^ 2 + v.y ^ 2)

/-- The codebase's `Vector2d::angle()`: the polar angle `atan2(y, x)`. -/
def Vector2d.angle (v : Vector2d) : ℝ := atan2 v.y v.x

/-- The codebase's `Vector2d::rotate(a)`: counterclockwise rotation by `a`
(here returning the rotated vector instead of mutating in place). -/
def Vector2d.rotate (v : Vector2d) (a : ℝ) : Vector2d :=
  ⟨Real.cos a * v.x - Real.sin a * v.y, Real.sin a * v.x + Real.cos a * v.y⟩

/-- Embedding of `Pose2f`: a 2D pose, rotation (heading) plus translation. -/
structure Pose2f where
  rotation : ℝ
  translation : Vector2d

/-- `Pose2f`'s zero default. -/
def Pose2f.zero : Pose2f := ⟨0, ⟨0, 0⟩⟩

/-- `LineMatchingResult::maxNumberOfLineObservations` (fixed correspondence
array capacity). -/
def maxNumberOfLineObservations : Nat := 8

/-- `LineMatchingResult::FieldLine`: a directed 2D segment (`start`, `end`)
plus the camera height of the observation that produced it. The C++ field
`end` is a Lean keyword and is embedded as `end_`. -/
structure FieldLine where
  start : Vector2d
  end_ : Vector2d
  cameraHeight : ℝ

/-- The zero-argument `FieldLine` constructor (`cameraHeight` defaults to 0). -/
def FieldLine.default : FieldLine := ⟨⟨0, 0⟩, ⟨0, 0⟩, 0⟩

/-- The fill value `memset(lineCorrespondences, 0, ...)` writes into every
correspondence slot at construction; it doubles as the "no correspondence"
sentinel of the spec. -/
def noCorrespondence : Int := 0

/-- `LineMatchingResult::PoseHypothesis`: a pose plus the fixed-size
`int lineCorrespondences[maxNumberOfLineObservations]` array, embedded as a
list carrying its length invariant. -/
structure PoseHypothesis where
  pose : Pose2f
  lineCorrespondences : List Int
  corr_length : lineCorrespondences.length = maxNumberOfLineObservations

/-- `PoseHypothesis::PoseHypothesis()`: default pose, correspondence slots
zero-filled by `memset`. -/
def PoseHypothesis.default : PoseHypothesis :=
  ⟨Pose2f.zero, List.replicate maxNumberOfLineObservations noCorrespondence, by simp⟩

/-- `PoseHypothesis::setLineCorrespondences`: copies the first
`maxNumberOfLineObservations` entries of the given array (the C++ caller must
supply at least that many entries; reads past the given list are modelled by
`getD` with value 0). -/
def PoseHypothesis.setLineCorrespondences (h : PoseHypothesis) (other : List Int) :
    PoseHypothesis :=
  ⟨h.pose, (List.range maxNumberOfLineObservations).map (fun i => other.getD i 0), by simp⟩

/-- `LineMatchingResult::PoseHypothesisInterval`: two boundary poses plus the
fixed-size correspondence array. -/
structure PoseHypothesisInterval where
  start : Pose2f
  end_ : Pose2f
  lineCorrespondences : List Int
  corr_length : lineCorrespondences.length = maxNumberOfLineObservations

/-- `PoseHypothesisInterval::PoseHypothesisInterval()`: default poses,
correspondence slots zero-filled by `memset`. -/
def PoseHypothesisInterval.default : PoseHypothesisInterval :=
  ⟨Pose2f.zero, Pose2f.zero, List.replicate maxNumberOfLineObservations noCorrespondence, by simp⟩

/-- The `LineMatchingResult` aggregate: field line map, raw observations,
cached spherical projections, unique hypotheses, hypothesis intervals, and
the one-line flag. -/
structure LineMatchingResult where
  fieldLines : List FieldLine
  observations : List FieldLine
  observationsSphericalCoords : List FieldLine
  poseHypothesis : List PoseHypothesis
  poseHypothesisIntervals : List PoseHypothesisInterval
  onlyObservedOneFieldLine : Bool

/-- `LineMatchingResult::reset()`: clears `observations`,
`observationsSphericalCoords`, `poseHypothesis`, `poseHypothesisIntervals`
and resets `onlyObservedOneFieldLine`; touches nothing else. -/
def LineMatchingResult.reset (r : LineMatchingResult) : LineMatchingResult :=
  { r with
    observations := []
    observationsSphericalCoords := []
    poseHypothesis := []
    poseHypothesisIntervals := []
    onlyObservedOneFieldLine := false }

/-- `LineMatchingResult::containsMatches()`:
`poseHypothesis.size() > 0 || poseHypothesisIntervals.size() > 0`. -/
def LineMatchingResult.containsMatches (r : LineMatchingResult) : Bool :=
  decide (0 < r.poseHypothesis.length) || decide (0 < r.poseHypothesisIntervals.length)

/-- `LineMatchingResult::containsUniqueMatches()`: `poseHypothesis.size() > 0`. -/
def LineMatchingResult.containsUniqueMatches (r : LineMatchingResult) : Bool :=
  decide (0 < r.poseHypothesis.length)

/-- `LineMatchingResult::containsNonUniqueMatches()`:
`poseHypothesisIntervals.size() > 0`. -/
def LineMatchingResult.containsNonUniqueMatches (r : LineMatchingResult) : Bool :=
  decide (0 < r.poseHypothesisIntervals.length)

/-- `getSphericalCoordinatesForPointObservation(pointInRelativeCoords,
cameraHeight)`: vertical angle `atan2(cameraHeight, norm)`, horizontal angle
`angle()`. -/
def getSphericalCoordinatesForPointObservation (pointInRelativeCoords : Vector2d)
    (cameraHeight : ℝ) : Vector2d :=
  ⟨atan2 cameraHeight pointInRelativeCoords.norm, pointInRelativeCoords.angle⟩

/-- The `(pose, pointInAbsoluteCoords, cameraHeight)` overload: subtracts the
pose translation, rotates by the negated pose rotation, then projects. -/
def getSphericalCoordinatesForPointObservationAtPose (pose : Pose2f)
    (pointInAbsoluteCoords : Vector2d) (cameraHeight : ℝ) : Vector2d :=
  getSphericalCoordinatesForPointObservation
    ((pointInAbsoluteCoords - pose.translation).rotate (-pose.rotation)) cameraHeight

/-- The `(fieldLineInRelativeCoords)` overload: projects `start` and `end`
with the line's own camera height and carries the camera height through. -/
def getSphericalCoordinatesForLineObservation (l : FieldLine) : FieldLine :=
  ⟨getSphericalCoordinatesForPointObservation l.start l.cameraHeight,
   getSphericalCoordinatesForPointObservation l.end_ l.cameraHeight,
   l.cameraHeight⟩

/-- The `(pose, fieldLineInAbsoluteCoords)` overload: projects both endpoints
through the pose overload and carries the camera height through. -/
def getSphericalCoordinatesForLineObservationAtPose (pose : Pose2f) (l : FieldLine) :
    FieldLine :=
  ⟨getSphericalCoordinatesForPointObservationAtPose pose l.start l.cameraHeight,
   getSphericalCoordinatesForPointObservationAtPose pose l.end_ l.cameraHeight,
   l.cameraHeight⟩

/-- Spec wording (§4.1): `planarDistance(point)`, the standard 2D polar
radius of the relative point. -/
def planarDistance (p : Vector2d) : ℝ := Real.sqrt (p.x ^ 2 + p.y ^ 2)

/-- Spec wording (§4.1): `bearing(point)`, the polar angle of the point
vector in the observer's frame. -/
def bearing (p : Vector2d) : ℝ := atan2 p.y p.x

/-- Spec wording (§4.1): express an absolute point relative to a candidate
pose — translate by the negative pose position, then rotate by the negative
pose heading. -/
def relativeToPose (pose : Pose2f) (p : Vector2d) : Vector2d :=
  (p - pose.translation).rotate (-pose.rotation)

/-- The inverse transformation of `relativeToPose` (spec §8 round-trip):
rotate by the pose heading, then translate by the pose position. -/
def absoluteFromPose (pose : Pose2f) (p : Vector2d) : Vector2d :=
  p.rotate pose.rotation + pose.translation

/-- Modelled from the spec: the body of `calculateObservationsSphericalCoords`
is not among the repository sources (only its declaration in
`LineMatchingResult.h`); per spec §3 and §6 it fills
`observationsSphericalCoords` with the spherical projection of each entry of
`observations`. -/
def LineMatchingResult.calculateObservationsSphericalCoords (r : LineMatchingResult) :
    LineMatchingResult :=
  { r with observationsSphericalCoords :=
      r.observations.map getSphericalCoordinatesForLineObservation }

/-- A scored candidate correspondence: observation index, map line index and
the Gaussian likelihood of that pairing. -/
structure ScoredPair where
  obs : Nat
  mapIdx : Nat
  like : ℝ

/-- Descending-likelihood order on scored pairs. -/
def descLike (a b : ScoredPair) : Prop := b.like ≤ a.like

instance : DecidableRel descLike := fun a b => inferInstanceAs (Decidable (b.like ≤ a.like))

instance : IsTotal ScoredPair descLike := ⟨fun a b => le_total b.like a.like⟩

instance : IsTrans ScoredPair descLike := ⟨fun _ _ _ h1 h2 => le_trans h2 h1⟩

/-- All (observation, map line) index pairs with their likelihood. -/
def allPairs (likelihood : Nat → Nat → ℝ) (numObs numMap : Nat) : List ScoredPair :=
  (List.range numObs).flatMap fun i => (List.range numMap).map fun j => ⟨i, j, likelihood i j⟩

/-- Scored pairs sorted by descending likelihood. -/
def sortPairs (l : List ScoredPair) : List ScoredPair := List.insertionSort descLike l

/-- Greedy conflict resolution (spec §4.2 step 4): walk the pairs in order,
accept a pair when neither its observation nor its map line is taken yet. -/
def greedyAssign : List ScoredPair → List Nat → List Nat → List ScoredPair
  | [], _, _ => []
  | p :: rest, usedObs, usedMap =>
    if p.obs ∈ usedObs ∨ p.mapIdx ∈ usedMap then greedyAssign rest usedObs usedMap
    else p :: greedyAssign rest (p.obs :: usedObs) (p.mapIdx :: usedMap)

/-- Modelled from the spec: the body of
`getCorrespondencesForLocalizationHypothesis` is not among the repository
sources (only its declaration in `LineMatchingResult.h`). Following spec
§4.2: every (observation, map line) pair is scored by a Gaussian likelihood
(spec §9 leaves the exact analytic form combining the pose covariance and the
measurement precision matrix open, so the score at the fixed pose and
covariances is the parameter `likelihood`); a pair is accepted only if its
likelihood exceeds `likelihoodThreshold`; conflicts are resolved greedily in
descending likelihood order. -/
def acceptedCorrespondences (likelihood : Nat → Nat → ℝ) (numObs numMap : Nat)
    (likelihoodThreshold : ℝ) : List ScoredPair :=
  greedyAssign
    ((sortPairs (allPairs likelihood numObs numMap)).filter
      (fun p => decide (likelihoodThreshold < p.like))) [] []

/-- A concrete field line used as a prior-state witness value. -/
def exampleLine : FieldLine := ⟨⟨0, 0⟩, ⟨1, 0⟩, 0⟩

/-- A concrete prior state with a nonempty field line map, nonempty
observations and hypotheses, and the one-line flag set. -/
def examplePriorState : LineMatchingResult :=
  ⟨[exampleLine], [exampleLine], [exampleLine], [PoseHypothesis.default],
   [PoseHypothesisInterval.default], true⟩

end

/-- C1 counterexample: `reset()` does not clear every sequence the aggregate
holds — starting from a state whose field line map is nonempty, the map is
still nonempty after `reset()`. -/
theorem reset_does_not_clear_fieldLines :
    ¬ (examplePriorState.reset.fieldLines = []) := by
  simp [LineMatchingResult.reset, examplePriorState]

/-- C1 (amended): `reset()` clears `observations`, the cached spherical
projections, the unique-hypothesis list and the interval list, and sets
`onlyObservedOneFieldLine` to `false` (the field line map is left unchanged);
consequently, after `reset()`, `containsMatches()` returns `false` and
`observations` is empty, regardless of the prior frame's content. -/
theorem reset_clears_frame_state (r : LineMatchingResult) :
    r.reset.observations = [] ∧
    r.reset.observationsSphericalCoords = [] ∧
    r.reset.poseHypothesis = [] ∧
    r.reset.poseHypothesisIntervals = [] ∧
    r.reset.onlyObservedOneFieldLine = false ∧
    r.reset.containsMatches = false := by
  refine ⟨rfl, rfl, rfl, rfl, rfl, ?_⟩
  simp [LineMatchingResult.reset, LineMatchingResult.containsMatches]

/-- C10: `reset()` leaves the field line map unchanged and modifies only
`observations`, `observationsSphericalCoords`, `poseHypothesis`,
`poseHypothesisIntervals` and `onlyObservedOneFieldLine`: the result is fully
determined as the record that keeps `fieldLines` and clears the rest. -/
theorem reset_preserves_fieldLines (r : LineMatchingResult) :
    r.reset = { fieldLines := r.fieldLines, observations := [],
                observationsSphericalCoords := [], poseHypothesis := [],
                poseHypothesisIntervals := [], onlyObservedOneFieldLine := false } :=
  rfl

/-- C5: `containsMatches()` is true iff a unique hypothesis or an interval is
present, `containsUniqueMatches()` iff `poseHypothesis` is nonempty,
`containsNonUniqueMatches()` iff `poseHypothesisIntervals` is nonempty. In
this embedding all three are plain functions of the state, so they mutate
nothing and recompute nothing beyond the cached sequence lengths. -/
theorem containsMatches_queries (r : LineMatchingResult) :
    (r.containsMatches = true ↔ (r.poseHypothesis ≠ [] ∨ r.poseHypothesisIntervals ≠ [])) ∧
    (r.containsUniqueMatches = true ↔ r.poseHypothesis ≠ []) ∧
    (r.containsNonUniqueMatches = true ↔ r.poseHypothesisIntervals ≠ []) := by
  refine ⟨?_, ?_, ?_⟩ <;>
    simp [LineMatchingResult.containsMatches, LineMatchingResult.containsUniqueMatches,
      LineMatchingResult.containsNonUniqueMatches, List.length_pos]

/-- C5 witness: the queries evaluated at the concrete prior state. -/
theorem containsMatches_queries_witness :
    (examplePriorState.containsMatches = true ↔
      (examplePriorState.poseHypothesis ≠ [] ∨ examplePriorState.poseHypothesisIntervals ≠ [])) ∧
    (examplePriorState.containsUniqueMatches = true ↔ examplePriorState.poseHypothesis ≠ []) ∧
    (examplePriorState.containsNonUniqueMatches = true ↔
      examplePriorState.poseHypothesisIntervals ≠ []) :=
  containsMatches_queries examplePriorState

/-- C4: every `PoseHypothesis` and every `PoseHypothesisInterval` carries a
correspondence array of exactly `maxNumberOfLineObservations = 8` slots, and
at construction every slot holds the sentinel fill value `noCorrespondence`. -/
theorem correspondence_array_invariant :
    maxNumberOfLineObservations = 8 ∧
    (∀ h : PoseHypothesis, h.lineCorrespondences.length = maxNumberOfLineObservations) ∧
    (∀ h : PoseHypothesisInterval, h.lineCorrespondences.length = maxNumberOfLineObservations) ∧
    PoseHypothesis.default.lineCorrespondences =
      List.replicate maxNumberOfLineObservations noCorrespondence ∧
    PoseHypothesisInterval.default.lineCorrespondences =
      List.replicate maxNumberOfLineObservations noCorrespondence :=
  ⟨rfl, fun h => h.corr_length, fun h => h.corr_length, rfl, rfl⟩

/-- C9: default-constructed `PoseHypothesis` and `PoseHypothesisInterval`
have all 8 correspondence slots equal to the integer 0 (the `memset` fill),
and 0, read as a map-line index, denotes the first line of any nonempty
field line map. -/
theorem default_correspondence_fill_zero :
    noCorrespondence = 0 ∧
    PoseHypothesis.default.lineCorrespondences = List.replicate 8 (0 : Int) ∧
    PoseHypothesisInterval.default.lineCorrespondences = List.replicate 8 (0 : Int) ∧
    (∀ (l : FieldLine) (rest : List FieldLine),
      (l :: rest).getD (Int.toNat noCorrespondence) l = l) :=
  ⟨rfl, rfl, rfl, fun _ _ => rfl⟩

theorem Vector2d.sub_def (a b : Vector2d) : a - b = ⟨a.x - b.x, a.y - b.y⟩ := rfl

theorem Vector2d.add_def (a b : Vector2d) : a + b = ⟨a.x + b.x, a.y + b.y⟩ := rfl

/-- C2: the spherical projection of a relative point `p` at camera height `h`
is the pair (vertical angle, horizontal angle) with vertical angle
`atan2(h, planarDistance(p))` and horizontal angle `bearing(p)`, both in
radians. -/
theorem spherical_point_projection_spec (p : Vector2d) (cameraHeight : ℝ) :
    getSphericalCoordinatesForPointObservation p cameraHeight =
      ⟨atan2 cameraHeight (planarDistance p), bearing p⟩ :=
  rfl

/-- C3: projecting a `FieldLine` applies the point projection independently
to its two endpoints and carries `cameraHeight` through unchanged; for a line
in absolute coordinates with a candidate pose, each endpoint is first
expressed relative to the pose (translate by the negative pose position, then
rotate by the negative pose heading) before the point projection is applied. -/
theorem spherical_line_projection_spec :
    (∀ l : FieldLine,
      getSphericalCoordinatesForLineObservation l =
        ⟨getSphericalCoordinatesForPointObservation l.start l.cameraHeight,
         getSphericalCoordinatesForPointObservation l.end_ l.cameraHeight,
         l.cameraHeight⟩) ∧
    (∀ (pose : Pose2f) (l : FieldLine),
      getSphericalCoordinatesForLineObservationAtPose pose l =
        ⟨getSphericalCoordinatesForPointObservation (relativeToPose pose l.start) l.cameraHeight,
         getSphericalCoordinatesForPointObservation (relativeToPose pose l.end_) l.cameraHeight,
         l.cameraHeight⟩) :=
  ⟨fun _ => rfl, fun _ _ => rfl⟩

/-- C6: expressing a point relative to a pose (translate by the negative pose
position, then rotate by the negative pose heading) and applying the inverse
transformation (rotate by the pose heading, then translate by the pose
position) returns the original point, exactly over real arithmetic. -/
theorem pose_projection_roundtrip (pose : Pose2f) (p : Vector2d) :
    absoluteFromPose pose (relativeToPose pose p) = p := by
  obtain ⟨rot, t⟩ := pose
  obtain ⟨tx, ty⟩ := t
  obtain ⟨px, py⟩ := p
  have hsc := Real.sin_sq_add_cos_sq rot
  simp only [absoluteFromPose, relativeToPose, Vector2d.rotate, Vector2d.sub_def,
    Vector2d.add_def, Real.cos_neg, Real.sin_neg]
  ext
  · dsimp only
    linear_combination (px - tx) * hsc
  · dsimp only
    linear_combination (py - ty) * hsc

theorem greedyAssign_length_append (l2 : List ScoredPair) :
    ∀ (l1 : List ScoredPair) (usedObs usedMap : List Nat),
      (greedyAssign l1 usedObs usedMap).length ≤
        (greedyAssign (l1 ++ l2) usedObs usedMap).length := by
  intro l1
  induction l1 with
  | nil =>
    intro uo um
    simp [greedyAssign]
  | cons p rest ih =>
    intro uo um
    by_cases h : p.obs ∈ uo ∨ p.mapIdx ∈ um
    · simpa [greedyAssign, h] using ih uo um
    · simpa [greedyAssign, h] using ih (p.obs :: uo) (p.mapIdx :: um)

theorem filter_threshold_suffix (t1 t2 : ℝ) (h12 : t1 ≤ t2) :
    ∀ l : List ScoredPair, l.Sorted descLike →
      ∃ suffix, l.filter (fun p => decide (t1 < p.like)) =
        l.filter (fun p => decide (t2 < p.like)) ++ suffix := by
  intro l
  induction l with
  | nil => exact fun _ => ⟨[], rfl⟩
  | cons p rest ih =>
    intro hs
    rw [List.sorted_cons] at hs
    obtain ⟨hp, hrest⟩ := hs
    by_cases h2 : t2 < p.like
    · obtain ⟨suffix, hsuffix⟩ := ih hrest
      have h1 : t1 < p.like := lt_of_le_of_lt h12 h2
      exact ⟨suffix, by simp [List.filter_cons, h1, h2, hsuffix]⟩
    · refine ⟨(p :: rest).filter (fun q => decide (t1 < q.like)), ?_⟩
      have hnil : (p :: rest).filter (fun q => decide (t2 < q.like)) = [] := by
        rw [List.filter_eq_nil_iff]
        intro q hq
        rcases List.mem_cons.mp hq with hq | hq
        · subst hq
          simpa using h2
        · have hle : q.like ≤ p.like := hp q hq
          simp only [decide_eq_true_eq, not_lt]
          exact le_trans hle (le_of_not_lt h2)
      rw [hnil, List.nil_append]

/-- C7: for a fixed likelihood score (a fixed set of observations, map lines,
candidate pose, pose covariance and measurement precision matrix) and
thresholds `t1 ≤ t2`, the number of correspondences accepted with threshold
`t2` never exceeds the number accepted with threshold `t1`. -/
theorem threshold_monotone (likelihood : Nat → Nat → ℝ) (numObs numMap : Nat)
    (t1 t2 : ℝ) (h12 : t1 ≤ t2) :
    (acceptedCorrespondences likelihood numObs numMap t2).length ≤
      (acceptedCorrespondences likelihood numObs numMap t1).length := by
  obtain ⟨suffix, hsuffix⟩ :=
    filter_threshold_suffix t1 t2 h12 (sortPairs (allPairs likelihood numObs numMap))
      (List.sorted_insertionSort descLike (allPairs likelihood numObs numMap))
  unfold acceptedCorrespondences
  rw [hsuffix]
  exact greedyAssign_length_append suffix _ [] []

/-- C7 witness: the monotonicity theorem applied at the constant-zero score
with 2 observations, 2 map lines and thresholds 0 ≤ 1. -/
theorem threshold_monotone_witness :
    (0 : ℝ) ≤ 1 ∧
    (acceptedCorrespondences (fun _ _ => 0) 2 2 1).length ≤
      (acceptedCorrespondences (fun _ _ => 0) 2 2 0).length :=
  ⟨zero_le_one, threshold_monotone (fun _ _ => 0) 2 2 0 1 zero_le_one⟩

/-- C8: for fixed inputs the correspondence search gives identical results on
any two calls; recomputing the spherical cache is idempotent; and two states
with equal observations get identical cached spherical coordinates. -/
theorem fixed_input_determinism :
    (∀ (likelihood : Nat → Nat → ℝ) (numObs numMap : Nat) (t : ℝ),
      acceptedCorrespondences likelihood numObs numMap t =
        acceptedCorrespondences likelihood numObs numMap t) ∧
    (∀ r : LineMatchingResult,
      r.calculateObservationsSphericalCoords.calculateObservationsSphericalCoords =
        r.calculateObservationsSphericalCoords) ∧
    (∀ r r' : LineMatchingResult, r.observations = r'.observations →
      r.calculateObservationsSphericalCoords.observationsSphericalCoords =
        r'.calculateObservationsSphericalCoords.observationsSphericalCoords) := by
  refine ⟨fun _ _ _ _ => rfl, fun r => rfl, fun r r' h => ?_⟩
  simp [LineMatchingResult.calculateObservationsSphericalCoords, h]

/-- C8 witness: two-run equality of the cached spherical coordinates at the
concrete prior state. -/
theorem fixed_input_determinism_witness :
    examplePriorState.calculateObservationsSphericalCoords.observationsSphericalCoords =
      examplePriorState.calculateObservationsSphericalCoords.observationsSphericalCoords :=
  fixed_input_determinism.2.2 examplePriorState examplePriorState rfl
